import Mathlib

/-!
Verification of the llimage chart pipeline (`llimage/chart/detector.py` and
`llimage/chart/extractor.py`) against its natural-language specification.

The geometric feature vector of a contour is embedded as a record of exact
rationals (the Python code computes floats; all thresholds and the integer
bounding boxes are exact, so the decision logic is faithfully captured over ℚ).
Bounding boxes come from `cv2.boundingRect` and are integers. The centroid is a
general rational; Python's `int(...)` truncation toward zero is modelled by
`py_int`. Quantities the claims never inspect numerically (the `atan2`-based
angle of a pie segment) are abstracted as an explicit function parameter, so
every statement about them holds for all values that function could take.
-/

namespace LLImage

/-- Feature vector produced by `ChartDetector._extract_shape_features`.
The `bounding_box` tuple is flattened into `box_x, box_y, box_w, box_h`
(integers, as returned by `cv2.boundingRect`), and `center` into
`center_x, center_y`. -/
structure FeatureVec where
  area : ℚ
  perimeter : ℚ
  box_x : ℤ
  box_y : ℤ
  box_w : ℤ
  box_h : ℤ
  center_x : ℚ
  center_y : ℚ
  solidity : ℚ
  aspect_ratio : ℚ
  extent : ℚ
  circularity : ℚ
  vertices : ℚ
  arc_score : ℚ
  ellipse_eccentricity : ℚ
deriving DecidableEq, Repr

/-- Python's `int(...)` on a real value: truncation toward zero. -/
def py_int (q : ℚ) : ℤ :=
  if 0 ≤ q then ⌊q⌋ else ⌈q⌉

/-- The point test of `ChartDetector._classify_shape` (rule 1): the outer guard
`area < 1000 and solidity > 0.9` together with the inner seven-way disjunction,
exactly as written in the source (lines 228-237 of `detector.py`). -/
def point_rule (f : FeatureVec) : Prop :=
  f.area < 1000 ∧ 9/10 < f.solidity ∧
    (45/100 < f.circularity ∨
     (5 ≤ f.vertices ∧ f.vertices ≤ 8 ∧ 6/10 < f.extent) ∨
     (f.area < 400 ∧ 6/10 < f.extent ∧ 95/100 < f.solidity) ∨
     (95/100 < f.solidity ∧ 7/10 < f.extent) ∨
     (4/10 < f.circularity ∧ 65/100 < f.extent ∧ 95/100 < f.solidity) ∨
     (f.area < 400 ∧ 95/100 < f.solidity ∧ 65/100 < f.extent) ∨
     (f.area < 500 ∧ f.vertices ≤ 6 ∧ 95/100 < f.solidity))

instance point_rule_dec (f : FeatureVec) : Decidable (point_rule f) := by
  unfold point_rule; infer_instance

/-- `ChartDetector._classify_shape`: the decision list of the source, evaluated
top to bottom with first match winning.  The nested `if` of the segment rule is
written as one conjunction (both failure paths of the nesting fall through to
`"unknown"`). -/
def classify_shape (f : FeatureVec) : String :=
  if point_rule f then "point"
  else if f.vertices = 4 ∧ 85/100 < f.extent ∧ 9/10 < f.solidity then "rectangle"
  else if f.vertices = 3 ∧ 9/10 < f.solidity then "triangle"
  else if 8/10 < f.circularity ∧ 9/10 < f.solidity ∧ 1000 ≤ f.area then "circle"
  else if 1000 < f.area ∧ 3/10 < f.arc_score ∧ 8/10 < f.solidity ∧
          2/10 ≤ f.circularity ∧ f.circularity ≤ 9/10 then "segment"
  else "unknown"

/-- Modelled from the spec: rule 1 (**point**) of the §4.4 decision list, with
its six disjuncts, written exactly from the spec's words. -/
def spec_point_rule (f : FeatureVec) : Prop :=
  f.area < 1000 ∧ 9/10 < f.solidity ∧
    (45/100 < f.circularity ∨
     (5 ≤ f.vertices ∧ f.vertices ≤ 8 ∧ 6/10 < f.extent) ∨
     (f.area < 400 ∧ 6/10 < f.extent ∧ 95/100 < f.solidity) ∨
     (95/100 < f.solidity ∧ 7/10 < f.extent) ∨
     (4/10 < f.circularity ∧ 65/100 < f.extent ∧ 95/100 < f.solidity) ∨
     (f.area < 500 ∧ f.vertices ≤ 6 ∧ 95/100 < f.solidity))

instance spec_point_rule_dec (f : FeatureVec) : Decidable (spec_point_rule f) := by
  unfold spec_point_rule; infer_instance

/-- Modelled from the spec: the §4.4 decision list, evaluated top-to-bottom,
first match wins, no match giving `"unknown"`. -/
def spec_classify_shape (f : FeatureVec) : String :=
  if spec_point_rule f then "point"
  else if f.vertices = 4 ∧ 85/100 < f.extent ∧ 9/10 < f.solidity then "rectangle"
  else if f.vertices = 3 ∧ 9/10 < f.solidity then "triangle"
  else if 8/10 < f.circularity ∧ 9/10 < f.solidity ∧ 1000 ≤ f.area then "circle"
  else if 1000 < f.area ∧ 3/10 < f.arc_score ∧ 8/10 < f.solidity ∧
          2/10 ≤ f.circularity ∧ f.circularity ≤ 9/10 then "segment"
  else "unknown"

lemma point_rule_iff_spec (f : FeatureVec) : point_rule f ↔ spec_point_rule f := by
  unfold point_rule spec_point_rule
  constructor
  · rintro ⟨h1, h2, h3⟩
    refine ⟨h1, h2, ?_⟩
    rcases h3 with h | h | h | h | h | ⟨ha, hs, he⟩ | h
    · left; exact h
    · right; left; exact h
    · right; right; left; exact h
    · right; right; right; left; exact h
    · right; right; right; right; left; exact h
    · right; right; left
      refine ⟨ha, ?_, hs⟩
      linarith
    · right; right; right; right; right; exact h
  · rintro ⟨h1, h2, h3⟩
    refine ⟨h1, h2, ?_⟩
    rcases h3 with h | h | h | h | h | h
    · left; exact h
    · right; left; exact h
    · right; right; left; exact h
    · right; right; right; left; exact h
    · right; right; right; right; left; exact h
    · right; right; right; right; right; right; exact h

/-- Claim C1: for every feature vector the classifier `_classify_shape` returns
exactly the category given by the spec's §4.4 decision list (top-to-bottom,
first match wins), and in particular the code's seven-disjunct point branch
accepts exactly the feature vectors accepted by the spec's six-disjunct
rule 1. -/
theorem C1_classifier_matches_spec_decision_list :
    (∀ f : FeatureVec, classify_shape f = spec_classify_shape f) ∧
    (∀ f : FeatureVec, point_rule f ↔ spec_point_rule f) := by
  refine ⟨fun f => ?_, point_rule_iff_spec⟩
  unfold classify_shape spec_classify_shape
  exact if_congr (point_rule_iff_spec f) rfl rfl

/-!
Python's `list.sort(key=...)` is a stable sort by a key.  It is embedded as a
stable insertion sort: an element is inserted after every already-placed
element whose key is strictly smaller, and before the first one whose key is
greater or equal, which preserves the original order of equal keys exactly as
Python's stable sort does.
-/

/-- Insert `a` into `l` before the first element whose key is not smaller. -/
def insert_by {α β : Type} [LinearOrder β] (key : α → β) (a : α) : List α → List α
  | [] => [a]
  | b :: l => if key b < key a then b :: insert_by key a l else a :: b :: l

/-- Stable insertion sort by a key, embedding `list.sort(key=...)`. -/
def sort_by {α β : Type} [LinearOrder β] (key : α → β) : List α → List α
  | [] => []
  | b :: l => insert_by key b (sort_by key l)

lemma insert_by_perm {α β : Type} [LinearOrder β] (key : α → β) (a : α) (l : List α) :
    (insert_by key a l).Perm (a :: l) := by
  induction l with
  | nil => exact List.Perm.refl _
  | cons b l ih =>
    unfold insert_by
    by_cases h : key b < key a
    · rw [if_pos h]
      exact ((ih.cons b).trans (List.Perm.swap a b l))
    · rw [if_neg h]

lemma sort_by_perm {α β : Type} [LinearOrder β] (key : α → β) (l : List α) :
    (sort_by key l).Perm l := by
  induction l with
  | nil => exact List.Perm.refl _
  | cons b l ih =>
    exact (insert_by_perm key b (sort_by key l)).trans (ih.cons b)

lemma sorted_insert_by {α β : Type} [LinearOrder β] (key : α → β) (a : α) {l : List α}
    (h : l.Sorted (fun u v => key u ≤ key v)) :
    (insert_by key a l).Sorted (fun u v => key u ≤ key v) := by
  induction l with
  | nil => simp [insert_by]
  | cons b l ih =>
    rw [List.sorted_cons] at h
    obtain ⟨hb, hl⟩ := h
    unfold insert_by
    by_cases hba : key b < key a
    · rw [if_pos hba, List.sorted_cons]
      refine ⟨?_, ih hl⟩
      intro c hc
      rcases List.mem_cons.mp ((insert_by_perm key a l).mem_iff.mp hc) with rfl | hcl
      · exact le_of_lt hba
      · exact hb c hcl
    · rw [if_neg hba, List.sorted_cons]
      refine ⟨?_, List.sorted_cons.mpr ⟨hb, hl⟩⟩
      intro c hc
      rcases List.mem_cons.mp hc with rfl | hcl
      · exact le_of_not_lt hba
      · exact le_trans (le_of_not_lt hba) (hb c hcl)

lemma sorted_sort_by {α β : Type} [LinearOrder β] (key : α → β) (l : List α) :
    (sort_by key l).Sorted (fun u v => key u ≤ key v) := by
  induction l with
  | nil => simp [sort_by]
  | cons b l ih => exact sorted_insert_by key b ih

/-- The features actually traversed by the extractor loops: every loop in
`ChartDataExtractor` iterates `for shape, feature in zip(shapes, features)`
and never reads `shape`, so only the features of the zipped pairs matter
(`zip` truncates to the shorter list). A contour is modelled as `Unit`. -/
def zipped_features (shapes : List Unit) (features : List FeatureVec) : List FeatureVec :=
  (shapes.zip features).map Prod.snd

/-- One record of the `"bars"` list built by
`ChartDataExtractor._extract_bar_data`. -/
structure BarRec where
  x : ℤ
  width : ℤ
  height : ℤ
  area : ℚ
deriving DecidableEq, Repr

/-- The record `_extract_bar_data` appends for a feature with `vertices == 4`:
the source unpacks `x, y, w, h = feature["bounding_box"]` and emits
`{x: x, width: w, height: h, area: area}` — the height is the bounding-box
height `h`, and the image is never consulted. -/
def bar_rec_of (f : FeatureVec) : BarRec :=
  { x := f.box_x, width := f.box_w, height := f.box_h, area := f.area }

/-- `ChartDataExtractor._extract_bar_data`: keep the features with
`vertices == 4`, build their records, sort ascending by the record's `x`. -/
def extract_bar_data (shapes : List Unit) (features : List FeatureVec) : List BarRec :=
  sort_by (fun b => b.x)
    (((zipped_features shapes features).filter (fun f => f.vertices = 4)).map bar_rec_of)

/-- The point predicate duplicated inside
`ChartDataExtractor._extract_line_data` (lines 97-104 of `extractor.py`),
written exactly as that source. -/
def line_point_rule (f : FeatureVec) : Prop :=
  f.area < 1000 ∧ 9/10 < f.solidity ∧
    (45/100 < f.circularity ∨
     (5 ≤ f.vertices ∧ f.vertices ≤ 8 ∧ 6/10 < f.extent) ∨
     (f.area < 400 ∧ 6/10 < f.extent ∧ 95/100 < f.solidity) ∨
     (95/100 < f.solidity ∧ 7/10 < f.extent) ∨
     (4/10 < f.circularity ∧ 65/100 < f.extent ∧ 95/100 < f.solidity) ∨
     (f.area < 400 ∧ 95/100 < f.solidity ∧ 65/100 < f.extent) ∨
     (f.area < 500 ∧ f.vertices ≤ 6 ∧ 95/100 < f.solidity))

instance line_point_rule_dec (f : FeatureVec) : Decidable (line_point_rule f) := by
  unfold line_point_rule; infer_instance

/-- One record of the `"points"` list built by `_extract_line_data`. -/
structure PointRec where
  x : ℤ
  y : ℤ
  size : ℚ
deriving DecidableEq, Repr

/-- The record `_extract_line_data` appends for an accepted feature:
`cx, cy = [int(v) for v in feature["center"]]`, `size = area`. -/
def point_rec_of (f : FeatureVec) : PointRec :=
  { x := py_int f.center_x, y := py_int f.center_y, size := f.area }

/-- `ChartDataExtractor._extract_line_data`: keep the features accepted by the
duplicated point predicate, build their records, sort ascending by `x`. -/
def extract_line_data (shapes : List Unit) (features : List FeatureVec) : List PointRec :=
  sort_by (fun p => p.x)
    (((zipped_features shapes features).filter (fun f => line_point_rule f)).map point_rec_of)

/-- A shape (other than rectangles) whose feature vector still has
`vertices == 4`: `_extract_bar_data` emits a record for it although the
classifier labels it `"unknown"` (solidity and extent are far below the
rectangle rule's thresholds).  Its bounding box is `(10, 100, 20, 50)`. -/
def bar_cex_feature : FeatureVec :=
  { area := 100, perimeter := 40, box_x := 10, box_y := 100, box_w := 20, box_h := 50,
    center_x := 20, center_y := 125, solidity := 1/2, aspect_ratio := 2/5,
    extent := 1/2, circularity := 1/4, vertices := 4, arc_score := 0,
    ellipse_eccentricity := 0 }

/-- Claim C2 counterexample: on the concrete one-shape input
`bar_cex_feature`, bar extraction emits a record although the shape is not of
rectangle category (the classifier labels it `"unknown"`), and the emitted
height is the bounding-box height `50`, not `image_height − bounding_box.y`
(which would be `400 ≠ 50` for an image of height `500`). -/
theorem C2_counterexample :
    extract_bar_data [()] [bar_cex_feature] =
      [{ x := 10, width := 20, height := 50, area := 100 }] ∧
    classify_shape bar_cex_feature = "unknown" ∧
    (500 : ℤ) - bar_cex_feature.box_y ≠ 50 := by
  refine ⟨?_, ?_, by norm_num [bar_cex_feature]⟩
  · simp [extract_bar_data, zipped_features, bar_cex_feature, sort_by, insert_by, bar_rec_of]
  · simp only [classify_shape]
    rw [if_neg, if_neg, if_neg, if_neg, if_neg]
    · norm_num [bar_cex_feature]
    · norm_num [bar_cex_feature]
    · norm_num [bar_cex_feature]
    · norm_num [bar_cex_feature]
    · unfold point_rule; norm_num [bar_cex_feature]

/-- Claim C2 (amended): bar extraction emits, up to its ascending-by-`x`
reordering, exactly one record per zipped feature with `vertices = 4`
(whatever its classifier category) and no other record, and each record
carries the shape's bounding-box `x`, `w`, `h` (as `height`) and its area. -/
theorem C2_amended_bar_records :
    ∀ (shapes : List Unit) (features : List FeatureVec),
      (extract_bar_data shapes features).Perm
        (((zipped_features shapes features).filter (fun f => f.vertices = 4)).map
          (fun f => { x := f.box_x, width := f.box_w, height := f.box_h,
                      area := f.area : BarRec })) := by
  intro shapes features
  exact sort_by_perm _ _

/-- Two vertices-4 features whose bounding-box `x` order is the reverse of
their centroid `x` order: `bar_order_cex_a` has box `x = 0` but centroid
`x = 100`, `bar_order_cex_b` has box `x = 10` but centroid `x = 5`. -/
def bar_order_cex_a : FeatureVec :=
  { area := 111, perimeter := 140, box_x := 0, box_y := 60, box_w := 30, box_h := 40,
    center_x := 100, center_y := 80, solidity := 1, aspect_ratio := 3/4,
    extent := 1, circularity := 1/2, vertices := 4, arc_score := 0,
    ellipse_eccentricity := 0 }

/-- See `bar_order_cex_a`. -/
def bar_order_cex_b : FeatureVec :=
  { area := 222, perimeter := 140, box_x := 10, box_y := 60, box_w := 30, box_h := 40,
    center_x := 5, center_y := 80, solidity := 1, aspect_ratio := 3/4,
    extent := 1, circularity := 1/2, vertices := 4, arc_score := 0,
    ellipse_eccentricity := 0 }

/-- Claim C4 counterexample: on the concrete two-shape input
`[bar_order_cex_a, bar_order_cex_b]`, the emitted bars (identified by their
distinct areas `111` and `222`) appear in the order of the shapes' bounding-box
`x` (`0 < 10`), while the corresponding centroid `x` coordinates are `100` and
`5` — strictly descending, so the output is not in ascending order of the input
shapes' centroids. -/
theorem C4_counterexample :
    extract_bar_data [(), ()] [bar_order_cex_a, bar_order_cex_b] =
      [{ x := 0, width := 30, height := 40, area := 111 },
       { x := 10, width := 30, height := 40, area := 222 }] ∧
    bar_order_cex_a.area = 111 ∧ bar_order_cex_b.area = 222 ∧
    bar_order_cex_b.center_x < bar_order_cex_a.center_x := by
  refine ⟨?_, rfl, rfl, by norm_num [bar_order_cex_a, bar_order_cex_b]⟩
  simp [extract_bar_data, zipped_features, bar_order_cex_a, bar_order_cex_b,
    sort_by, insert_by, bar_rec_of]

/-- Claim C4 (amended): the bars returned by bar extraction are ordered
ascending by their `x` field, the bounding-box `x`-coordinate of the
corresponding input shapes (not the centroid `x`). -/
theorem C4_amended_bars_sorted_by_box_x :
    ∀ (shapes : List Unit) (features : List FeatureVec),
      (extract_bar_data shapes features).Sorted (fun a b => a.x ≤ b.x) := by
  intro shapes features
  exact sorted_sort_by _ _

/-- Claim C5: the point predicate duplicated inside `_extract_line_data`
accepts a feature vector exactly when the classifier's rule-1 point test does,
and the points emitted by line extraction are sorted ascending by `x`. -/
theorem C5_line_point_predicate_and_order :
    (∀ f : FeatureVec, line_point_rule f ↔ point_rule f) ∧
    (∀ (shapes : List Unit) (features : List FeatureVec),
      (extract_line_data shapes features).Sorted (fun p q => p.x ≤ q.x)) := by
  constructor
  · intro f
    unfold line_point_rule point_rule
    exact Iff.rfl
  · intro shapes features
    exact sorted_sort_by _ _

/-- One record of the `"segments"` list built by
`ChartDataExtractor._extract_pie_data`. -/
structure SegRec where
  center_x : ℤ
  center_y : ℤ
  area : ℚ
  percentage : ℚ
  angle : ℚ
  arc_score : ℚ
deriving DecidableEq, Repr

/-- The dictionary returned by `_extract_pie_data` (`"type"` tag omitted). -/
structure PieData where
  center_x : ℤ
  center_y : ℤ
  segments : List SegRec
  total_area : ℚ
deriving DecidableEq, Repr

/-- The features selected by both passes of `_extract_pie_data`: those with
`feature.get("arc_score", 0) > 0.3`. -/
def pie_selected (shapes : List Unit) (features : List FeatureVec) : List FeatureVec :=
  (zipped_features shapes features).filter (fun f => 3/10 < f.arc_score)

/-- `total_area` accumulated by the first pass of `_extract_pie_data`. -/
def pie_total_area (shapes : List Unit) (features : List FeatureVec) : ℚ :=
  ((pie_selected shapes features).map (fun f => f.area)).sum

/-- The chart center computed by `_extract_pie_data`: the area-weighted mean
of the truncated segment centroids when the selected total area is positive;
otherwise, when `shapes` is non-empty, the plain average of *all* features'
centroids (the fallback loop reads `features`, not the selected subset);
otherwise the initial `(0, 0)`.  In ℚ a division by zero yields 0 where the
Python fallback would raise `ZeroDivisionError` (non-empty `shapes` with empty
`features`), a path the enclosing `try/except` of `extract_data` absorbs. -/
def pie_center (shapes : List Unit) (features : List FeatureVec) : ℤ × ℤ :=
  let sel := pie_selected shapes features
  let total := (sel.map (fun f => f.area)).sum
  let wx := (sel.map (fun f => (py_int f.center_x : ℚ) * f.area)).sum
  let wy := (sel.map (fun f => (py_int f.center_y : ℚ) * f.area)).sum
  if 0 < total then
    (py_int (wx / total), py_int (wy / total))
  else if shapes ≠ [] then
    (py_int ((features.map (fun f => f.center_x)).sum / (features.length : ℚ)),
     py_int ((features.map (fun f => f.center_y)).sum / (features.length : ℚ)))
  else (0, 0)

/-- The record the second pass of `_extract_pie_data` appends for a selected
feature.  The angle `degrees(atan2(dy, dx)) % 360` is transcendental, so it is
abstracted as the parameter `angle_of dy dx`; every theorem below holds for
all values that parameter can take. -/
def seg_rec_of (center : ℤ × ℤ) (total : ℚ) (angle_of : ℤ → ℤ → ℚ)
    (f : FeatureVec) : SegRec :=
  let cx := py_int f.center_x
  let cy := py_int f.center_y
  { center_x := cx, center_y := cy, area := f.area,
    percentage := if 0 < total then f.area / total * 100 else 0,
    angle := angle_of (cy - center.2) (cx - center.1),
    arc_score := f.arc_score }

/-- `ChartDataExtractor._extract_pie_data`: select by arc score, compute the
weighted center, build one record per selected feature, sort ascending by
angle. -/
def extract_pie_data (angle_of : ℤ → ℤ → ℚ) (shapes : List Unit)
    (features : List FeatureVec) : PieData :=
  let total := pie_total_area shapes features
  let c := pie_center shapes features
  { center_x := c.1, center_y := c.2,
    segments := sort_by (fun s => s.angle)
      ((pie_selected shapes features).map (seg_rec_of c total angle_of)),
    total_area := total }

/-- A feature with `arc_score > 0.3` that the classifier labels `"unknown"`
(solidity `1/2` fails the segment rule's `solidity > 0.8`): pie extraction
still emits a segment record for it. -/
def pie_cex_feature : FeatureVec :=
  { area := 2000, perimeter := 200, box_x := 0, box_y := 0, box_w := 50, box_h := 50,
    center_x := 25, center_y := 25, solidity := 1/2, aspect_ratio := 1,
    extent := 1/2, circularity := 1/2, vertices := 5, arc_score := 1/2,
    ellipse_eccentricity := 0 }

/-- Claim C3 counterexample: on the concrete one-shape input
`pie_cex_feature`, pie extraction emits one segment record although the
classifier labels the shape `"unknown"`, not `"segment"` — inclusion is not
restricted to segment-category shapes. -/
theorem C3_counterexample :
    ((extract_pie_data (fun _ _ => 0) [()] [pie_cex_feature]).segments).length = 1 ∧
    classify_shape pie_cex_feature = "unknown" := by
  constructor
  · norm_num [extract_pie_data, pie_selected, pie_total_area, pie_center, zipped_features,
      pie_cex_feature, sort_by, insert_by, seg_rec_of, List.filter_cons]
  · simp only [classify_shape]
    rw [if_neg, if_neg, if_neg, if_neg, if_neg]
    · norm_num [pie_cex_feature]
    · norm_num [pie_cex_feature]
    · norm_num [pie_cex_feature]
    · norm_num [pie_cex_feature]
    · unfold point_rule; norm_num [pie_cex_feature]

/-- Claim C3 (amended): pie extraction includes a shape in its output segments
if and only if the shape's `arc_score` exceeds `0.3` (the code's filter, which
does not coincide with the classifier's segment category): the emitted
segments are, up to the ascending-by-angle reordering, exactly the records of
the arc-score-selected features; and they are sorted ascending by angle. -/
theorem C3_amended_pie_selection_and_order :
    (∀ (angle_of : ℤ → ℤ → ℚ) (shapes : List Unit) (features : List FeatureVec),
      ((extract_pie_data angle_of shapes features).segments).Perm
        (((zipped_features shapes features).filter (fun f => 3/10 < f.arc_score)).map
          (seg_rec_of (pie_center shapes features) (pie_total_area shapes features)
            angle_of))) ∧
    (∀ (angle_of : ℤ → ℤ → ℚ) (shapes : List Unit) (features : List FeatureVec),
      ((extract_pie_data angle_of shapes features).segments).Sorted
        (fun s t => s.angle ≤ t.angle)) := by
  constructor
  · intro angle_of shapes features
    exact sort_by_perm _ _
  · intro angle_of shapes features
    exact sorted_sort_by _ _

/-- Claim C9: whenever the selected total segment area is positive, the
percentages of the emitted pie segments sum exactly to 100 in exact rational
arithmetic (each percentage is `area / total_area * 100` over the same
selected set). -/
theorem C9_pie_percentages_sum_100 (angle_of : ℤ → ℤ → ℚ) (shapes : List Unit)
    (features : List FeatureVec)
    (h : 0 < (extract_pie_data angle_of shapes features).total_area) :
    (((extract_pie_data angle_of shapes features).segments).map
      (fun s => s.percentage)).sum = 100 := by
  have htot : (extract_pie_data angle_of shapes features).total_area =
      pie_total_area shapes features := rfl
  rw [htot] at h
  have hperm : (((extract_pie_data angle_of shapes features).segments).map
      (fun s => s.percentage)).Perm
      (((pie_selected shapes features).map
        (seg_rec_of (pie_center shapes features) (pie_total_area shapes features)
          angle_of)).map (fun s => s.percentage)) :=
    List.Perm.map _ (sort_by_perm _ _)
  rw [hperm.sum_eq, List.map_map]
  have hmap : ((pie_selected shapes features).map
      ((fun s : SegRec => s.percentage) ∘
        seg_rec_of (pie_center shapes features) (pie_total_area shapes features)
          angle_of)) =
      (pie_selected shapes features).map
        (fun f => f.area * (100 / pie_total_area shapes features)) := by
    apply List.map_congr_left
    intro f _
    simp only [Function.comp, seg_rec_of, if_pos h]
    ring
  rw [hmap, List.sum_map_mul_right]
  have : ((pie_selected shapes features).map (fun f => f.area)).sum =
      pie_total_area shapes features := rfl
  rw [this]
  field_simp

/-- A feature selected as a pie segment (`arc_score = 1/2`) with area 200. -/
def pie_seg_feature : FeatureVec :=
  { area := 200, perimeter := 60, box_x := 0, box_y := 0, box_w := 20, box_h := 20,
    center_x := 10, center_y := 10, solidity := 9/10, aspect_ratio := 1,
    extent := 1/2, circularity := 1/2, vertices := 6, arc_score := 1/2,
    ellipse_eccentricity := 0 }

/-- Witness for C9: on the concrete one-segment input `pie_seg_feature` the
total area is 200 > 0 and the percentages sum to 100. -/
theorem C9_witness :
    0 < (extract_pie_data (fun _ _ => 0) [()] [pie_seg_feature]).total_area ∧
    (((extract_pie_data (fun _ _ => 0) [()] [pie_seg_feature]).segments).map
      (fun s => s.percentage)).sum = 100 := by
  have h : 0 < (extract_pie_data (fun _ _ => 0) [()] [pie_seg_feature]).total_area := by
    show (0 : ℚ) < pie_total_area [()] [pie_seg_feature]
    norm_num [pie_total_area, pie_selected, zipped_features, pie_seg_feature,
      List.filter_cons]
  exact ⟨h, C9_pie_percentages_sum_100 (fun _ _ => 0) [()] [pie_seg_feature] h⟩

/-- The type-tagged `"data"` payload of `ChartDataExtractor.extract_data`. -/
inductive ChartData where
  | empty : ChartData
  | bar (bars : List BarRec) : ChartData
  | line (points : List PointRec) : ChartData
  | pie (d : PieData) : ChartData
deriving DecidableEq, Repr

/-- The dictionary returned by `ChartDataExtractor.extract_data`: a success
flag, an optional `"error"` string, the echoed chart type, and the payload
(`{}` is modelled as `ChartData.empty`). -/
structure ExtractResult where
  success : Bool
  error : Option String
  chart_type : String
  data : ChartData
deriving DecidableEq, Repr

/-- `ChartDataExtractor.extract_data`: the empty-input check comes first, then
the dispatch on the chart type, with unsupported types reported as failures.
The per-type extractors are total here, so the source's `try/except` around
them has no failing path to model. -/
def extract_data (angle_of : ℤ → ℤ → ℚ) (chart_type : String)
    (shapes : List Unit) (features : List FeatureVec) : ExtractResult :=
  if shapes = [] ∨ features = [] then
    { success := false, error := some "No shapes detected",
      chart_type := chart_type, data := .empty }
  else if chart_type = "bar" then
    { success := true, error := none, chart_type := chart_type,
      data := .bar (extract_bar_data shapes features) }
  else if chart_type = "line" then
    { success := true, error := none, chart_type := chart_type,
      data := .line (extract_line_data shapes features) }
  else if chart_type = "pie" then
    { success := true, error := none, chart_type := chart_type,
      data := .pie (extract_pie_data angle_of shapes features) }
  else
    { success := false, error := some ("Unsupported chart type: " ++ chart_type),
      chart_type := chart_type, data := .empty }

/-- Claim C10: for every chart type, calling `extract_data` with an empty
shapes list or an empty features list returns the failure result with error
`"No shapes detected"`, the chart type echoed back and empty data — the
empty-input check precedes (and therefore pre-empts) the unsupported-type
error. -/
theorem C10_extract_data_empty_input (angle_of : ℤ → ℤ → ℚ) (chart_type : String)
    (shapes : List Unit) (features : List FeatureVec)
    (h : shapes = [] ∨ features = []) :
    extract_data angle_of chart_type shapes features =
      { success := false, error := some "No shapes detected",
        chart_type := chart_type, data := .empty } := by
  unfold extract_data
  rw [if_pos h]

/-- Witness for C10: a concrete unsupported chart type with no shapes still
reports `"No shapes detected"`, not the unsupported-type error. -/
theorem C10_witness :
    extract_data (fun _ _ => 0) "scatter" [] [pie_seg_feature] =
      { success := false, error := some "No shapes detected",
        chart_type := "scatter", data := .empty } :=
  C10_extract_data_empty_input (fun _ _ => 0) "scatter" [] [pie_seg_feature]
    (Or.inl rfl)

/-- A bounding box `(x, y, w, h)` as returned by `cv2.boundingRect`. -/
structure Box where
  x : ℤ
  y : ℤ
  w : ℤ
  h : ℤ
deriving DecidableEq, Repr

/-- The bounding box recorded in a feature vector. -/
def fbox (f : FeatureVec) : Box :=
  { x := f.box_x, y := f.box_y, w := f.box_w, h := f.box_h }

/-- The strict overlap test of `_detect_shapes_internal` (lines 80-81 of
`detector.py`): `x < ox + ow and x + w > ox and y < oy + oh and y + h > oy`. -/
def overlap_cond (b o : Box) : Prop :=
  b.x < o.x + o.w ∧ o.x < b.x + b.w ∧ b.y < o.y + o.h ∧ o.y < b.y + b.h

instance overlap_cond_dec (b o : Box) : Decidable (overlap_cond b o) := by
  unfold overlap_cond; infer_instance

/-- The (unclamped) intersection term computed by the source once the overlap
test passed. -/
def code_inter (b o : Box) : ℤ :=
  (min (b.x + b.w) (o.x + o.w) - max b.x o.x) *
    (min (b.y + b.h) (o.y + o.h) - max b.y o.y)

/-- `union = w * h + ow * oh - intersection` as computed by the source. -/
def code_union (b o : Box) : ℤ :=
  b.w * b.h + o.w * o.h - code_inter b o

/-- The duplicate test of `_detect_shapes_internal`: inside the strict overlap
test, discard when `intersection / union > 0.5`.  The integer division of the
source is Python's true division, embedded exactly in ℚ (where a zero
denominator yields 0 and the candidate is kept; in Python that corner raises
`ZeroDivisionError`, so no shape is emitted at all and the emitted-pairs
invariant below is vacuous there). -/
def bbox_overlap_check (b o : Box) : Bool :=
  if overlap_cond b o then
    decide ((1 : ℚ)/2 < (code_inter b o : ℚ) / (code_union b o : ℚ))
  else false

/-- The geometric intersection area of two boxes (each factor clamped at 0). -/
def bbox_inter (b o : Box) : ℤ :=
  max 0 (min (b.x + b.w) (o.x + o.w) - max b.x o.x) *
    max 0 (min (b.y + b.h) (o.y + o.h) - max b.y o.y)

/-- Intersection-over-union of two bounding boxes, in exact rationals
(0 when the union area is 0). -/
def bbox_iou (b o : Box) : ℚ :=
  (bbox_inter b o : ℚ) / ((b.w * b.h + o.w * o.h - bbox_inter b o : ℤ) : ℚ)

lemma bbox_inter_eq_zero_left {b o : Box}
    (h : min (b.x + b.w) (o.x + o.w) - max b.x o.x ≤ 0) : bbox_inter b o = 0 := by
  unfold bbox_inter
  rw [max_eq_left h, zero_mul]

lemma bbox_inter_eq_zero_right {b o : Box}
    (h : min (b.y + b.h) (o.y + o.h) - max b.y o.y ≤ 0) : bbox_inter b o = 0 := by
  unfold bbox_inter
  rw [max_eq_left h, mul_zero]

lemma bbox_iou_of_inter_zero {b o : Box} (h : bbox_inter b o = 0) :
    bbox_iou b o = 0 := by
  unfold bbox_iou
  rw [h]
  norm_num

lemma bbox_inter_of_not_overlap {b o : Box} (hc : ¬ overlap_cond b o) :
    bbox_inter b o = 0 := by
  unfold overlap_cond at hc
  by_cases hA : b.x < o.x + o.w
  · by_cases hB : o.x < b.x + b.w
    · by_cases hC : b.y < o.y + o.h
      · by_cases hD : o.y < b.y + b.h
        · exact absurd ⟨hA, hB, hC, hD⟩ hc
        · refine bbox_inter_eq_zero_right ?_
          have h1 : min (b.y + b.h) (o.y + o.h) ≤ b.y + b.h := min_le_left _ _
          have h2 : o.y ≤ max b.y o.y := le_max_right _ _
          have h3 : b.y + b.h ≤ o.y := not_lt.mp hD
          linarith
      · refine bbox_inter_eq_zero_right ?_
        have h1 : min (b.y + b.h) (o.y + o.h) ≤ o.y + o.h := min_le_right _ _
        have h2 : b.y ≤ max b.y o.y := le_max_left _ _
        have h3 : o.y + o.h ≤ b.y := not_lt.mp hC
        linarith
    · refine bbox_inter_eq_zero_left ?_
      have h1 : min (b.x + b.w) (o.x + o.w) ≤ b.x + b.w := min_le_left _ _
      have h2 : o.x ≤ max b.x o.x := le_max_right _ _
      have h3 : b.x + b.w ≤ o.x := not_lt.mp hB
      linarith
  · refine bbox_inter_eq_zero_left ?_
    have h1 : min (b.x + b.w) (o.x + o.w) ≤ o.x + o.w := min_le_right _ _
    have h2 : b.x ≤ max b.x o.x := le_max_left _ _
    have h3 : o.x + o.w ≤ b.x := not_lt.mp hA
    linarith

/-- A candidate the duplicate test lets through has IoU at most 1/2 with the
box it was compared against. -/
lemma bbox_iou_le_half_of_check_false {b o : Box}
    (hc : bbox_overlap_check b o = false) : bbox_iou b o ≤ 1/2 := by
  unfold bbox_overlap_check at hc
  by_cases hcond : overlap_cond b o
  · rw [if_pos hcond] at hc
    have hle : (code_inter b o : ℚ) / (code_union b o : ℚ) ≤ 1/2 :=
      le_of_not_lt (of_decide_eq_false hc)
    by_cases h1 : 0 < min (b.x + b.w) (o.x + o.w) - max b.x o.x
    · by_cases h2 : 0 < min (b.y + b.h) (o.y + o.h) - max b.y o.y
      · have hint : bbox_inter b o = code_inter b o := by
          unfold bbox_inter code_inter
          rw [max_eq_right h1.le, max_eq_right h2.le]
        unfold bbox_iou
        rw [hint]
        unfold code_union at hle
        exact hle
      · rw [bbox_iou_of_inter_zero (bbox_inter_eq_zero_right (not_lt.mp h2))]
        norm_num
    · rw [bbox_iou_of_inter_zero (bbox_inter_eq_zero_left (not_lt.mp h1))]
      norm_num
  · rw [bbox_iou_of_inter_zero (bbox_inter_of_not_overlap hcond)]
    norm_num

lemma bbox_iou_comm (b o : Box) : bbox_iou b o = bbox_iou o b := by
  unfold bbox_iou bbox_inter
  rw [min_comm (b.x + b.w), min_comm (b.y + b.h), max_comm b.x, max_comm b.y]
  ring_nf

/-- The configuration read by `ChartDetector.__init__` (the advisory
`shape_similarity_threshold` is never consulted by the dedup rule). -/
structure DetectConfig where
  min_confidence : ℚ := 7/10
  min_shape_area : ℚ := 50
deriving DecidableEq, Repr

/-- The candidate loop of `ChartDetector._detect_shapes_internal`, over the
x-sorted candidates.  A candidate is modelled by its feature vector (the
source computes `cv2.contourArea` and `cv2.boundingRect` of the contour and
later stores the same values in the features).  `processed` is the set of
bounding boxes of the shapes accepted so far (a Python `set`; a list with
possible duplicates is equivalent under `List.any`): a box is added exactly
when the candidate is accepted, i.e. classified differently from
`"unknown"`. -/
def detect_loop (cfg : DetectConfig) (processed : List Box) :
    List FeatureVec → List FeatureVec × List String
  | [] => ([], [])
  | f :: rest =>
    if f.area < cfg.min_shape_area then detect_loop cfg processed rest
    else if (processed.any fun ob => bbox_overlap_check (fbox f) ob) then
      detect_loop cfg processed rest
    else if classify_shape f = "unknown" then detect_loop cfg processed rest
    else
      (f :: (detect_loop cfg (fbox f :: processed) rest).1,
       classify_shape f :: (detect_loop cfg (fbox f :: processed) rest).2)

/-- `ChartDetector._detect_shapes_internal`: sort the candidates by the `x`
of their bounding box (Python's stable `sorted`), then run the accepting
loop with no processed boxes.  Returns the parallel lists of accepted shapes
(as their feature vectors) and their categories. -/
def detect_shapes_internal (cfg : DetectConfig) (cands : List FeatureVec) :
    List FeatureVec × List String :=
  detect_loop cfg [] (sort_by (fun f => f.box_x) cands)

lemma detect_loop_invariant (cfg : DetectConfig) :
    ∀ (rest : List FeatureVec) (processed : List Box),
      (∀ g ∈ (detect_loop cfg processed rest).1, ∀ ob ∈ processed,
          bbox_overlap_check (fbox g) ob = false) ∧
      ((detect_loop cfg processed rest).1.Pairwise
        (fun a b => bbox_overlap_check (fbox b) (fbox a) = false)) := by
  intro rest
  induction rest with
  | nil => intro processed; simp [detect_loop]
  | cons f rest ih =>
    intro processed
    simp only [detect_loop]
    split_ifs with h1 h2 h3
    · exact ih processed
    · exact ih processed
    · exact ih processed
    · have hany : ∀ ob ∈ processed, bbox_overlap_check (fbox f) ob = false := by
        intro ob hob
        by_contra hne
        have htrue : bbox_overlap_check (fbox f) ob = true := by
          cases hx : bbox_overlap_check (fbox f) ob
          · exact absurd hx hne
          · rfl
        exact h2 (List.any_eq_true.mpr ⟨ob, hob, htrue⟩)
      obtain ⟨ih1, ih2⟩ := ih (fbox f :: processed)
      constructor
      · intro g hg ob hob
        rcases List.mem_cons.mp hg with rfl | hg'
        · exact hany ob hob
        · exact ih1 g hg' ob (List.mem_cons_of_mem _ hob)
      · rw [List.pairwise_cons]
        exact ⟨fun b hb => ih1 b hb (fbox f) (List.mem_cons_self _ _), ih2⟩

lemma detect_loop_subset (cfg : DetectConfig) :
    ∀ (rest : List FeatureVec) (processed : List Box),
      ∀ g ∈ (detect_loop cfg processed rest).1, g ∈ rest := by
  intro rest
  induction rest with
  | nil => intro processed g hg; simp [detect_loop] at hg
  | cons f rest ih =>
    intro processed g hg
    simp only [detect_loop] at hg
    split_ifs at hg with h1 h2 h3
    · exact List.mem_cons_of_mem _ (ih processed g hg)
    · exact List.mem_cons_of_mem _ (ih processed g hg)
    · exact List.mem_cons_of_mem _ (ih processed g hg)
    · rcases List.mem_cons.mp hg with rfl | hg'
      · exact List.mem_cons_self _ _
      · exact List.mem_cons_of_mem _ (ih (fbox f :: processed) g hg')

/-- Claim C6: any two distinct shapes emitted by shape detection have
bounding boxes whose intersection-over-union is at most 0.5 — a candidate
whose box overlaps an already accepted box with IoU above 0.5 is discarded,
so no pair of duplicates survives. -/
theorem C6_no_duplicate_boxes_survive :
    ∀ (cfg : DetectConfig) (cands : List FeatureVec),
      ((detect_shapes_internal cfg cands).1).Pairwise
        (fun a b => bbox_iou (fbox a) (fbox b) ≤ 1/2) := by
  intro cfg cands
  have h := (detect_loop_invariant cfg (sort_by (fun f => f.box_x) cands) []).2
  refine h.imp ?_
  intro a b hab
  have hba : bbox_iou (fbox b) (fbox a) ≤ 1/2 := bbox_iou_le_half_of_check_false hab
  rw [bbox_iou_comm] at hba
  exact hba

/-- The dictionary returned by `ChartDetector.detect`.  The accepted shapes
and their feature vectors coincide in this embedding (a candidate is its
feature vector), so one list carries both; the structural-analysis fields
(`type`, `details`), which no claim inspects, involve floating-point standard
deviations and `atan2` and are not modelled. -/
structure DetectResult where
  success : Bool
  shape_count : ℕ
  shape_types : List String
  shapes : List FeatureVec
  confidence : ℚ
  error : Option String
deriving DecidableEq, Repr

/-- The confidence aggregation of `ChartDetector.detect`: the mean over the
accepted shapes of `solidity * extent`, and 0 when no shape was accepted. -/
def detect_confidence (cfg : DetectConfig) (cands : List FeatureVec) : ℚ :=
  let accepted := (detect_shapes_internal cfg cands).1
  if accepted ≠ [] then
    ((accepted.map (fun f => f.solidity * f.extent)).sum) / (accepted.length : ℚ)
  else 0

/-- `ChartDetector.detect`.  The whole body runs under `try/except
Exception`; everything before the feature loop (image decoding,
`preprocess_image`, `cv2.findContours`) is external `cv2` code, so the input
is modelled as the outcome of that stage: either the candidate feature list,
or the string of the exception the stage raised.  `detect` is a total
function — for every input, including the failure case, it returns a
`DetectResult`, which embeds "the entry point never raises". -/
def detect (cfg : DetectConfig)
    (input : Except String (List FeatureVec)) : DetectResult :=
  match input with
  | .error e =>
      { success := false, shape_count := 0, shape_types := [], shapes := [],
        confidence := 0, error := some e }
  | .ok cands =>
      { success := decide (0 < (detect_shapes_internal cfg cands).1.length ∧
          cfg.min_confidence ≤ detect_confidence cfg cands),
        shape_count := (detect_shapes_internal cfg cands).1.length,
        shape_types := (detect_shapes_internal cfg cands).2,
        shapes := (detect_shapes_internal cfg cands).1,
        confidence := detect_confidence cfg cands,
        error := none }

/-- Claim C7: when every candidate's solidity and extent lie in [0,1], the
confidence of the detection result lies in [0,1]; an empty shape list forces
confidence 0 and success false; with at least one shape the confidence is the
mean over the accepted shapes of `solidity * extent`; and success holds
exactly when at least one shape was detected and the confidence reaches the
configured `min_confidence`. -/
theorem C7_confidence_bounds_and_success (cfg : DetectConfig)
    (cands : List FeatureVec)
    (h : ∀ f ∈ cands, 0 ≤ f.solidity ∧ f.solidity ≤ 1 ∧ 0 ≤ f.extent ∧ f.extent ≤ 1) :
    (0 ≤ (detect cfg (Except.ok cands)).confidence ∧
      (detect cfg (Except.ok cands)).confidence ≤ 1) ∧
    ((detect cfg (Except.ok cands)).shape_count = 0 →
      (detect cfg (Except.ok cands)).confidence = 0 ∧
        (detect cfg (Except.ok cands)).success = false) ∧
    (0 < (detect cfg (Except.ok cands)).shape_count →
      (detect cfg (Except.ok cands)).confidence =
        (((detect_shapes_internal cfg cands).1).map
          (fun f => f.solidity * f.extent)).sum /
          ((detect cfg (Except.ok cands)).shape_count : ℚ)) ∧
    ((detect cfg (Except.ok cands)).success = true ↔
      0 < (detect cfg (Except.ok cands)).shape_count ∧
        cfg.min_confidence ≤ (detect cfg (Except.ok cands)).confidence) := by
  have hsub : ∀ g ∈ (detect_shapes_internal cfg cands).1, g ∈ cands := by
    intro g hg
    have := detect_loop_subset cfg (sort_by (fun f => f.box_x) cands) [] g hg
    exact (sort_by_perm (fun f => f.box_x) cands).mem_iff.mp this
  have hterm : ∀ t ∈ ((detect_shapes_internal cfg cands).1.map
      (fun f => f.solidity * f.extent)), 0 ≤ t ∧ t ≤ 1 := by
    intro t ht
    obtain ⟨g, hg, rfl⟩ := List.mem_map.mp ht
    obtain ⟨hs0, hs1, he0, he1⟩ := h g (hsub g hg)
    exact ⟨mul_nonneg hs0 he0, mul_le_one₀ hs1 he0 he1⟩
  have hsum0 : 0 ≤ ((detect_shapes_internal cfg cands).1.map
      (fun f => f.solidity * f.extent)).sum :=
    List.sum_nonneg (fun t ht => (hterm t ht).1)
  have hsum1 : ((detect_shapes_internal cfg cands).1.map
      (fun f => f.solidity * f.extent)).sum ≤
      ((detect_shapes_internal cfg cands).1.length : ℚ) := by
    have := List.sum_le_card_nsmul
      ((detect_shapes_internal cfg cands).1.map (fun f => f.solidity * f.extent)) 1
      (fun t ht => (hterm t ht).2)
    simpa [List.length_map, nsmul_eq_mul] using this
  have hconf : (detect cfg (Except.ok cands)).confidence =
      detect_confidence cfg cands := rfl
  have hcount : (detect cfg (Except.ok cands)).shape_count =
      (detect_shapes_internal cfg cands).1.length := rfl
  refine ⟨?_, ?_, ?_, ?_⟩
  · rw [hconf]
    unfold detect_confidence
    by_cases hne : (detect_shapes_internal cfg cands).1 = []
    · simp [hne]
    · rw [if_pos hne]
      have hlen : 0 < ((detect_shapes_internal cfg cands).1.length : ℚ) := by
        have : (detect_shapes_internal cfg cands).1.length ≠ 0 := by
          simpa [List.length_eq_zero] using hne
        positivity
      constructor
      · exact div_nonneg hsum0 hlen.le
      · rw [div_le_one hlen]
        exact hsum1
  · intro hzero
    rw [hcount] at hzero
    have hnil : (detect_shapes_internal cfg cands).1 = [] :=
      List.length_eq_zero.mp hzero
    constructor
    · rw [hconf]; unfold detect_confidence; simp [hnil]
    · show decide (0 < (detect_shapes_internal cfg cands).1.length ∧
        cfg.min_confidence ≤ detect_confidence cfg cands) = false
      simp [hnil]
  · intro hpos
    rw [hconf, hcount]
    unfold detect_confidence
    rw [hcount] at hpos
    have hne : (detect_shapes_internal cfg cands).1 ≠ [] := by
      intro hnil
      rw [hnil] at hpos
      simp at hpos
    rw [if_pos hne]
  · show decide (0 < (detect_shapes_internal cfg cands).1.length ∧
      cfg.min_confidence ≤ detect_confidence cfg cands) = true ↔ _
    rw [decide_eq_true_eq, hcount, hconf]

/-- A large rectangle candidate: classified `"rectangle"`, area 5000 above the
default minimum, solidity 0.95 and extent 0.9 giving confidence 0.855. -/
def detect_witness_feature : FeatureVec :=
  { area := 5000, perimeter := 300, box_x := 10, box_y := 10, box_w := 100,
    box_h := 50, center_x := 60, center_y := 35, solidity := 95/100,
    aspect_ratio := 2, extent := 9/10, circularity := 1/2, vertices := 4,
    arc_score := 0, ellipse_eccentricity := 0 }

/-- Witness for C7: the single rectangle candidate satisfies the solidity and
extent bounds, and the conclusion of C7 holds at that concrete input with the
default configuration. -/
theorem C7_witness :
    (0 ≤ detect_witness_feature.solidity ∧ detect_witness_feature.solidity ≤ 1 ∧
      0 ≤ detect_witness_feature.extent ∧ detect_witness_feature.extent ≤ 1) ∧
    ((0 ≤ (detect {} (Except.ok [detect_witness_feature])).confidence ∧
      (detect {} (Except.ok [detect_witness_feature])).confidence ≤ 1) ∧
    ((detect {} (Except.ok [detect_witness_feature])).shape_count = 0 →
      (detect {} (Except.ok [detect_witness_feature])).confidence = 0 ∧
        (detect {} (Except.ok [detect_witness_feature])).success = false) ∧
    (0 < (detect {} (Except.ok [detect_witness_feature])).shape_count →
      (detect {} (Except.ok [detect_witness_feature])).confidence =
        (((detect_shapes_internal {} [detect_witness_feature]).1).map
          (fun f => f.solidity * f.extent)).sum /
          (((detect {} (Except.ok [detect_witness_feature])).shape_count : ℚ))) ∧
    ((detect {} (Except.ok [detect_witness_feature])).success = true ↔
      0 < (detect {} (Except.ok [detect_witness_feature])).shape_count ∧
        DetectConfig.min_confidence {} ≤
          (detect {} (Except.ok [detect_witness_feature])).confidence)) := by
  have hb : ∀ f ∈ [detect_witness_feature],
      0 ≤ f.solidity ∧ f.solidity ≤ 1 ∧ 0 ≤ f.extent ∧ f.extent ≤ 1 := by
    intro f hf
    rw [List.mem_singleton.mp hf]
    norm_num [detect_witness_feature]
  exact ⟨hb detect_witness_feature (List.mem_singleton_self _),
    C7_confidence_bounds_and_success {} [detect_witness_feature] hb⟩

/-- Claim C8: the top-level entry point never raises — `detect` is a total
function of its input (see its doc comment), and when the internal pipeline
fails with message `e` the result has `success = false`, `shape_count = 0`,
and carries exactly the non-empty error string `e`. -/
theorem C8_detect_error_branch (cfg : DetectConfig) (e : String) (he : e ≠ "") :
    (detect cfg (Except.error e)).success = false ∧
    (detect cfg (Except.error e)).shape_count = 0 ∧
    (detect cfg (Except.error e)).error = some e ∧
    (detect cfg (Except.error e)).error ≠ some "" := by
  refine ⟨rfl, rfl, rfl, ?_⟩
  intro hcontra
  exact he (Option.some.inj hcontra)

/-- Witness for C8: a concrete failure message yields the failure result with
that non-empty error string. -/
theorem C8_witness :
    ("could not broadcast input array" : String) ≠ "" ∧
    ((detect {} (Except.error "could not broadcast input array")).success = false ∧
    (detect {} (Except.error "could not broadcast input array")).shape_count = 0 ∧
    (detect {} (Except.error "could not broadcast input array")).error =
      some "could not broadcast input array" ∧
    (detect {} (Except.error "could not broadcast input array")).error ≠ some "") :=
  ⟨by decide,
    C8_detect_error_branch {} "could not broadcast input array" (by decide)⟩

end LLImage
